import Mathlib

/-!
Shallow embedding of the request lifecycle store of the Webhook MCP server
(src/src/store.ts), together with the response-lookup handler
(WebhookServer.handleGetResponse) and the polling completion waiter
(waitForResponse) from the server entry point.

Modelling conventions:
* the JS Map from string keys to records is modelled pointwise as a function
  from identifiers to optional records;
* Date.now() timestamps are natural numbers (milliseconds);
* a Partial record argument is a record of optional fields, and the spread
  merge keeps a stored field exactly when the update does not supply it;
* the JS exception channel is made explicit with Except: a store method that
  threw would return Except.error; the translated bodies contain no throw
  site, so every branch is Except.ok;
* the waiter's wall clock is modelled by the elapsed milliseconds at each
  poll: the k-th read happens at elapsed time 100 * k, matching the fixed
  100 ms sleep between reads, and the loop guard compares that elapsed time
  with the caller's timeout exactly as the while condition does.
-/

namespace WebhookMcp

/-- Status literals of the status field in src/src/store.ts. -/
inductive Status where
  | PENDING
  | SENT
  | COMPLETED
  | FAILED
  | TIMEOUT
  deriving DecidableEq

/-- The optional response payload stored on a request (src/src/store.ts). -/
structure WebhookResponse where
  status : Nat
  headers : Option (List (String × String))
  body : Option String
  receivedAt : Nat
  deriving DecidableEq

/-- A stored request record (interface WebhookRequest in src/src/store.ts). -/
structure WebhookRequest where
  requestId : String
  content : String
  url : String
  username : Option String
  avatar_url : Option String
  status : Status
  sentAt : Nat
  expiresAt : Nat
  response : Option WebhookResponse
  deriving DecidableEq

/-- An update argument for updateRequest: each field optionally supplied,
modelling the Partial record type of the updates parameter. -/
structure UpdateFields where
  requestId : Option String := none
  content : Option String := none
  url : Option String := none
  username : Option (Option String) := none
  avatar_url : Option (Option String) := none
  status : Option Status := none
  sentAt : Option Nat := none
  expiresAt : Option Nat := none
  response : Option (Option WebhookResponse) := none
  deriving DecidableEq

/-- The JS object spread of the stored record with the updates: a field of
the result is the updated value when supplied, the stored value otherwise. -/
def mergeRequest (request : WebhookRequest) (updates : UpdateFields) : WebhookRequest where
  requestId := updates.requestId.getD request.requestId
  content := updates.content.getD request.content
  url := updates.url.getD request.url
  username := updates.username.getD request.username
  avatar_url := updates.avatar_url.getD request.avatar_url
  status := updates.status.getD request.status
  sentAt := updates.sentAt.getD request.sentAt
  expiresAt := updates.expiresAt.getD request.expiresAt
  response := updates.response.getD request.response

/-- The private requests map of RequestStore, modelled pointwise. -/
abbrev RequestStore := String → Option WebhookRequest

/-- The initial empty map. -/
def emptyStore : RequestStore := fun _ => none

/-- RequestStore.saveRequest: this.requests.set(request.requestId, request). -/
def saveRequest (s : RequestStore) (request : WebhookRequest) : RequestStore :=
  fun id => if id = request.requestId then some request else s id

/-- RequestStore.getRequest: return this.requests.get(requestId). -/
def getRequest (s : RequestStore) (requestId : String) : Option WebhookRequest :=
  s requestId

/-- RequestStore.updateRequest: fetch the record; when present, set the key
to the spread merge of the record with the updates; otherwise do nothing. -/
def updateRequest (s : RequestStore) (requestId : String) (updates : UpdateFields) :
    RequestStore :=
  match s requestId with
  | some request => fun id => if id = requestId then some (mergeRequest request updates) else s id
  | none => s

/-- RequestStore.cleanup: delete every entry whose expiresAt < now. -/
def cleanup (s : RequestStore) (now : Nat) : RequestStore :=
  fun id =>
    match s id with
    | some request => if request.expiresAt < now then none else some request
    | none => none

/-- RequestStore.saveRequest with the JS exception channel explicit: the
method body is a single Map.set, which cannot throw, so the result is ok. -/
def saveRequestE (s : RequestStore) (request : WebhookRequest) :
    Except String RequestStore :=
  Except.ok (fun id => if id = request.requestId then some request else s id)

/-- RequestStore.getRequest with the JS exception channel explicit: a single
Map.get, which cannot throw. -/
def getRequestE (s : RequestStore) (requestId : String) :
    Except String (Option WebhookRequest) :=
  Except.ok (s requestId)

/-- RequestStore.updateRequest with the JS exception channel explicit: a
Map.get, a guard, and a Map.set, none of which can throw. -/
def updateRequestE (s : RequestStore) (requestId : String) (updates : UpdateFields) :
    Except String RequestStore :=
  match s requestId with
  | some request =>
      Except.ok (fun id => if id = requestId then some (mergeRequest request updates) else s id)
  | none => Except.ok s

/-- RequestStore.cleanup with the JS exception channel explicit: iteration
plus Map.delete, which cannot throw. -/
def cleanupE (s : RequestStore) (now : Nat) : Except String RequestStore :=
  Except.ok (fun id =>
    match s id with
    | some request => if request.expiresAt < now then none else some request
    | none => none)

/-- The literal update object passed by the lookup handler on expiry:
only the status field, set to TIMEOUT. -/
def timeoutPatch : UpdateFields := { status := some Status.TIMEOUT }

/-- Outcome of the get_response tool handler, keeping what the returned text
exposes: not-found, timed-out, or the record's status and response body. -/
inductive GetResponseOutcome where
  | notFound
  | timedOut
  | statusBody (status : Status) (body : Option String)
  deriving DecidableEq

/-- WebhookServer.handleGetResponse for a valid requestId argument: look the
record up; when absent report not-found; when still PENDING past its
expiresAt, first persist a status-only TIMEOUT update through
store.updateRequest, then report timed-out; otherwise report the record's
status and response body. -/
def handleGetResponse (s : RequestStore) (now : Nat) (requestId : String) :
    RequestStore × GetResponseOutcome :=
  match getRequest s requestId with
  | none => (s, GetResponseOutcome.notFound)
  | some request =>
    if request.status = Status.PENDING ∧ request.expiresAt < now then
      (updateRequest s requestId timeoutPatch, GetResponseOutcome.timedOut)
    else
      (s, GetResponseOutcome.statusBody request.status
            (request.response.bind WebhookResponse.body))

/-- State-passing rendering of RequestStore.getRequest: the method body only
reads the map, so the store component comes back unchanged. -/
def getRequestWithStore (s : RequestStore) (requestId : String) :
    RequestStore × Option WebhookRequest :=
  (s, s requestId)

/-- The waiter's done test: request?.status is COMPLETED or FAILED; an
absent record compares unequal to both. -/
def waitIsDone : Option WebhookRequest → Bool
  | some request => request.status = Status.COMPLETED || request.status = Status.FAILED
  | none => false

/-- One-step-per-iteration rendering of the while loop of waitForResponse:
while the elapsed time is below the timeout, read the record, return it when
the done test holds, otherwise sleep 100 ms and continue. The fuel argument
only bounds the recursion; the caller passes enough for the guard to fail
first. -/
def waitLoop (getAt : Nat → Option WebhookRequest) (timeoutMs : Nat) :
    Nat → Nat → Option WebhookRequest
  | 0, _ => none
  | fuel + 1, elapsed =>
    if elapsed < timeoutMs then
      if waitIsDone (getAt elapsed) then getAt elapsed
      else waitLoop getAt timeoutMs fuel (elapsed + 100)
    else none

/-- waitForResponse from the server entry point: poll every 100 ms from
elapsed time 0 until the done test holds or the timeout elapses. getAt gives
the store's answer for the request id at each elapsed time. -/
def waitForResponse (getAt : Nat → Option WebhookRequest) (timeoutMs : Nat) :
    Option WebhookRequest :=
  waitLoop getAt timeoutMs ((timeoutMs + 99) / 100) 0

/-- Spec-side description of the waiter: scan the reads at the scheduled
poll times in order and return the first one passing the done test. -/
def firstDoneRead (getAt : Nat → Option WebhookRequest) :
    List Nat → Option WebhookRequest
  | [] => none
  | t :: ts => if waitIsDone (getAt t) then getAt t else firstDoneRead getAt ts

/-- Spec-side poll schedule: reads happen at 0, 100, 200, ... while strictly
below the timeout. -/
def pollTimes (timeoutMs : Nat) : List Nat :=
  (List.range ((timeoutMs + 99) / 100)).map (fun k => 100 * k)

/-- Terminal statuses per the spec's glossary. -/
def isTerminal : Status → Bool
  | Status.COMPLETED => true
  | Status.FAILED => true
  | Status.TIMEOUT => true
  | _ => false

/-- A concrete completed record for concrete evaluations. -/
def completedRecord : WebhookRequest where
  requestId := "a"
  content := "hi"
  url := "https://x"
  username := none
  avatar_url := none
  status := Status.COMPLETED
  sentAt := 0
  expiresAt := 1000
  response := none

/-- A concrete pending record with a short expiry. -/
def pendingRecord : WebhookRequest where
  requestId := "p"
  content := "hi"
  url := "https://x"
  username := none
  avatar_url := none
  status := Status.PENDING
  sentAt := 0
  expiresAt := 100
  response := none

/-- A concrete record already in the TIMEOUT terminal state. -/
def timeoutRecord : WebhookRequest where
  requestId := "t"
  content := "hi"
  url := "https://x"
  username := none
  avatar_url := none
  status := Status.TIMEOUT
  sentAt := 0
  expiresAt := 100
  response := none

/-- The completed record with a different content payload, sharing its id. -/
def completedRecordB : WebhookRequest :=
  { completedRecord with content := "second" }

/-- A store holding only the completed record. -/
def storeWithCompleted : RequestStore := saveRequest emptyStore completedRecord

/-- A store holding only the pending record. -/
def storeWithPending : RequestStore := saveRequest emptyStore pendingRecord

/-- A store holding the completed and the pending record. -/
def storeTwo : RequestStore := saveRequest storeWithCompleted pendingRecord

/-- A status-only update to FAILED. -/
def failedPatch : UpdateFields := { status := some Status.FAILED }

/-- A status-only update back to PENDING. -/
def pendingPatch : UpdateFields := { status := some Status.PENDING }

/-- C2: a lookup (the get_response handler) of an existing PENDING record
whose expiresAt is strictly in the past reports timed-out, first persisting
a status-only TIMEOUT update in the store, so the stored record now carries
status TIMEOUT with all other fields intact, and any later lookup of the
same id observes status TIMEOUT. -/
theorem get_lazy_expiry (s : RequestStore) (now : Nat) (id : String) (r : WebhookRequest)
    (hr : getRequest s id = some r) (hp : r.status = Status.PENDING)
    (he : r.expiresAt < now) :
    (handleGetResponse s now id).2 = GetResponseOutcome.timedOut ∧
    getRequest (handleGetResponse s now id).1 id = some (mergeRequest r timeoutPatch) ∧
    (mergeRequest r timeoutPatch).status = Status.TIMEOUT ∧
    ∀ later : Nat,
      (handleGetResponse (handleGetResponse s now id).1 later id).2 =
        GetResponseOutcome.statusBody Status.TIMEOUT (r.response.bind WebhookResponse.body) := by
  have hs : s id = some r := hr
  have h1 : handleGetResponse s now id =
      (updateRequest s id timeoutPatch, GetResponseOutcome.timedOut) := by
    simp [handleGetResponse, getRequest, hs, hp, he]
  have hst : getRequest (updateRequest s id timeoutPatch) id =
      some (mergeRequest r timeoutPatch) := by
    simp [getRequest, updateRequest, hs]
  have hmst : (mergeRequest r timeoutPatch).status = Status.TIMEOUT := by
    simp [mergeRequest, timeoutPatch]
  refine ⟨by rw [h1], by rw [h1]; exact hst, hmst, ?_⟩
  intro later
  rw [h1]
  have h2 : (updateRequest s id timeoutPatch) id = some (mergeRequest r timeoutPatch) := hst
  simp only [handleGetResponse, getRequest, h2]
  simp [hmst, mergeRequest, timeoutPatch]

/-- C5: updating an existing record merges exactly the supplied fields:
the stored record becomes the merge, every unsupplied field keeps its stored
value (expiresAt in particular), a supplied status takes effect, and every
other id in the store is untouched. -/
theorem updateRequest_partial_merge (s : RequestStore) (id : String) (r : WebhookRequest)
    (u : UpdateFields) (hr : getRequest s id = some r) :
    getRequest (updateRequest s id u) id = some (mergeRequest r u) ∧
    (u.requestId = none → (mergeRequest r u).requestId = r.requestId) ∧
    (u.content = none → (mergeRequest r u).content = r.content) ∧
    (u.url = none → (mergeRequest r u).url = r.url) ∧
    (u.username = none → (mergeRequest r u).username = r.username) ∧
    (u.avatar_url = none → (mergeRequest r u).avatar_url = r.avatar_url) ∧
    (u.status = none → (mergeRequest r u).status = r.status) ∧
    (u.sentAt = none → (mergeRequest r u).sentAt = r.sentAt) ∧
    (u.expiresAt = none → (mergeRequest r u).expiresAt = r.expiresAt) ∧
    (u.response = none → (mergeRequest r u).response = r.response) ∧
    (∀ v, u.status = some v → (mergeRequest r u).status = v) ∧
    (∀ j, j ≠ id → getRequest (updateRequest s id u) j = getRequest s j) := by
  have hs : s id = some r := hr
  refine ⟨by simp [getRequest, updateRequest, hs], ?_, ?_, ?_, ?_, ?_, ?_, ?_, ?_, ?_, ?_, ?_⟩
  · intro h; simp [mergeRequest, h]
  · intro h; simp [mergeRequest, h]
  · intro h; simp [mergeRequest, h]
  · intro h; simp [mergeRequest, h]
  · intro h; simp [mergeRequest, h]
  · intro h; simp [mergeRequest, h]
  · intro h; simp [mergeRequest, h]
  · intro h; simp [mergeRequest, h]
  · intro h; simp [mergeRequest, h]
  · intro v hv; simp [mergeRequest, hv]
  · intro j hj; simp [getRequest, updateRequest, hs, hj]

/-- C5 witness: a concrete failed-status-only update on the stored pending
record yields exactly the merge of the two. -/
theorem updateRequest_partial_merge_witness :
    getRequest storeWithPending "p" = some pendingRecord ∧
    failedPatch.expiresAt = none ∧
    getRequest (updateRequest storeWithPending "p" failedPatch) "p" =
      some (mergeRequest pendingRecord failedPatch) :=
  ⟨by decide, rfl,
   (updateRequest_partial_merge storeWithPending "p" pendingRecord failedPatch (by decide)).1⟩

/-- C6: a cleanup run at a given time deletes a stored record exactly when
its expiresAt has passed, with no regard to its status, and otherwise
retains the record unmodified. -/
theorem cleanup_deletes_exactly_expired (s : RequestStore) (now : Nat) (id : String)
    (r : WebhookRequest) (hr : getRequest s id = some r) :
    (r.expiresAt < now → getRequest (cleanup s now) id = none) ∧
    (¬ r.expiresAt < now → getRequest (cleanup s now) id = some r) := by
  have hs : s id = some r := hr
  constructor <;> intro h <;> simp [getRequest, cleanup, hs, h]

/-- C6 witness: with one COMPLETED and one PENDING record both past expiry,
cleanup deletes both; before expiry the COMPLETED record is retained
unmodified. -/
theorem cleanup_deletes_exactly_expired_witness :
    (getRequest storeTwo "a" = some completedRecord ∧
     completedRecord.status = Status.COMPLETED ∧
     getRequest (cleanup storeTwo 2000) "a" = none) ∧
    (getRequest storeTwo "p" = some pendingRecord ∧
     pendingRecord.status = Status.PENDING ∧
     getRequest (cleanup storeTwo 2000) "p" = none) ∧
    getRequest (cleanup storeTwo 500) "a" = some completedRecord :=
  ⟨⟨by decide, rfl,
    (cleanup_deletes_exactly_expired storeTwo 2000 "a" completedRecord (by decide)).1 (by decide)⟩,
   ⟨by decide, rfl,
    (cleanup_deletes_exactly_expired storeTwo 2000 "p" pendingRecord (by decide)).1 (by decide)⟩,
   (cleanup_deletes_exactly_expired storeTwo 500 "a" completedRecord (by decide)).2 (by decide)⟩

/-- C7: updating an unknown id is a silent no-op: no error is raised and
the whole store is unchanged. -/
theorem updateRequest_unknown_noop (s : RequestStore) (id : String) (u : UpdateFields)
    (h : getRequest s id = none) :
    updateRequest s id u = s := by
  have hs : s id = none := h
  simp [updateRequest, hs]

/-- C7 witness: updating a missing id in the empty store returns the empty
store itself. -/
theorem updateRequest_unknown_noop_witness :
    getRequest emptyStore "zzz" = none ∧
    updateRequest emptyStore "zzz" failedPatch = emptyStore :=
  ⟨rfl, updateRequest_unknown_noop emptyStore "zzz" failedPatch rfl⟩

/-- C8: with the JS exception channel explicit, every public store
operation returns ok — create, read, update and sweep never throw; a read
of a never-created id surfaces not-found as the absent value, not as an
error. -/
theorem store_ops_never_throw (s : RequestStore) (r : WebhookRequest) (id : String)
    (u : UpdateFields) (now : Nat) :
    saveRequestE s r = Except.ok (saveRequest s r) ∧
    getRequestE s id = Except.ok (getRequest s id) ∧
    updateRequestE s id u = Except.ok (updateRequest s id u) ∧
    cleanupE s now = Except.ok (cleanup s now) ∧
    getRequestE emptyStore id = Except.ok none := by
  refine ⟨rfl, rfl, ?_, rfl, rfl⟩
  cases h : s id <;> simp [updateRequestE, updateRequest, h]

/-- C10: the store's get is a pure read: the state-passing rendering gives
back the store unchanged and the unmodified snapshot, even for a PENDING
record past its expiry; the PENDING-to-TIMEOUT transition observable at the
interface is performed by the lookup handler through a separate
updateRequest call. -/
theorem getRequest_pure (s : RequestStore) (now : Nat) (id : String) (r : WebhookRequest)
    (hr : getRequest s id = some r) (hp : r.status = Status.PENDING)
    (he : r.expiresAt < now) :
    (∀ j, (getRequestWithStore s j).1 = s) ∧
    (getRequestWithStore s id).2 = some r ∧
    (handleGetResponse s now id).1 = updateRequest s id timeoutPatch := by
  have hs : s id = some r := hr
  refine ⟨fun j => rfl, hr, ?_⟩
  simp [handleGetResponse, getRequest, hs, hp, he]

/-- C10 witness: on the concrete expired pending record, get returns the
still-PENDING snapshot and the unchanged store. -/
theorem getRequest_pure_witness :
    (getRequest storeWithPending "p" = some pendingRecord ∧
     pendingRecord.status = Status.PENDING ∧ pendingRecord.expiresAt < 150) ∧
    (getRequestWithStore storeWithPending "p").1 = storeWithPending ∧
    (getRequestWithStore storeWithPending "p").2 = some pendingRecord := by
  have h := getRequest_pure storeWithPending 150 "p" pendingRecord (by decide) rfl (by decide)
  exact ⟨⟨by decide, rfl, by decide⟩, h.1 "p", h.2.1⟩

/-- C2 witness: on the concrete pending record read at time 150, past its
expiry 100, the handler reports timed-out. -/
theorem get_lazy_expiry_witness :
    (getRequest storeWithPending "p" = some pendingRecord ∧
     pendingRecord.status = Status.PENDING ∧ pendingRecord.expiresAt < 150) ∧
    (handleGetResponse storeWithPending 150 "p").2 = GetResponseOutcome.timedOut :=
  ⟨⟨by decide, rfl, by decide⟩,
   (get_lazy_expiry storeWithPending 150 "p" pendingRecord (by decide) rfl (by decide)).1⟩

/-- C1 counterexample: the store's update imposes no forward-only guard: on
a record already in the terminal state COMPLETED, an update supplying status
PENDING moves the stored status back to PENDING. -/
theorem update_reverts_terminal_cex :
    getRequest storeWithCompleted "a" = some completedRecord ∧
    completedRecord.status = Status.COMPLETED ∧
    (getRequest (updateRequest storeWithCompleted "a" pendingPatch) "a").map
      WebhookRequest.status = some Status.PENDING := by
  refine ⟨by decide, rfl, by decide⟩

/-- C1 (amended): once a record is terminal, the lookup handler's lazy
expiry leaves the store unchanged and reports the record's status as data,
and cleanup either deletes the record or retains it intact; only an update
that itself supplies a status can change a terminal status. -/
theorem terminal_untouched_by_get_and_cleanup (s : RequestStore) (now : Nat) (id : String)
    (r : WebhookRequest) (hr : getRequest s id = some r)
    (hterm : isTerminal r.status = true) :
    (handleGetResponse s now id).1 = s ∧
    (handleGetResponse s now id).2 =
      GetResponseOutcome.statusBody r.status (r.response.bind WebhookResponse.body) ∧
    ∀ r', getRequest (cleanup s now) id = some r' → r' = r := by
  have hs : s id = some r := hr
  have hnp : ¬ r.status = Status.PENDING := fun hps => by
    rw [hps] at hterm
    exact absurd hterm (by decide)
  refine ⟨?_, ?_, ?_⟩
  · simp [handleGetResponse, getRequest, hs, hnp]
  · simp [handleGetResponse, getRequest, hs, hnp]
  · intro r' h
    simp only [getRequest, cleanup, hs] at h
    by_cases hexp : r.expiresAt < now
    · rw [if_pos hexp] at h
      cases h
    · rw [if_neg hexp] at h
      injection h with h
      exact h.symm

/-- C1 witness: on the concrete COMPLETED record read past its expiry, the
handler leaves the store unchanged. -/
theorem terminal_untouched_witness :
    (getRequest storeWithCompleted "a" = some completedRecord ∧
     isTerminal completedRecord.status = true) ∧
    (handleGetResponse storeWithCompleted 5000 "a").1 = storeWithCompleted :=
  ⟨⟨by decide, rfl⟩,
   (terminal_untouched_by_get_and_cleanup storeWithCompleted 5000 "a" completedRecord
     (by decide) rfl).1⟩

/-- C3 counterexample: creating a record whose id is already present raises
nothing and silently replaces the stored record with the new one. -/
theorem saveRequest_silent_overwrite_cex :
    getRequest storeWithCompleted "a" = some completedRecord ∧
    completedRecordB ≠ completedRecord ∧
    saveRequestE storeWithCompleted completedRecordB =
      Except.ok (saveRequest storeWithCompleted completedRecordB) ∧
    getRequest (saveRequest storeWithCompleted completedRecordB) "a" =
      some completedRecordB := by
  refine ⟨by decide, by decide, rfl, by decide⟩

/-- C3 (amended): create with an already-present identifier is a silent
overwrite: no error is raised, the id now maps to the new record, and every
other id is untouched. -/
theorem saveRequest_overwrites_duplicate (s : RequestStore) (r old : WebhookRequest)
    (hdup : getRequest s r.requestId = some old) :
    saveRequestE s r = Except.ok (saveRequest s r) ∧
    getRequest (saveRequest s r) r.requestId = some r ∧
    ∀ j, j ≠ r.requestId → getRequest (saveRequest s r) j = getRequest s j := by
  refine ⟨rfl, by simp [getRequest, saveRequest], ?_⟩
  intro j hj
  simp [getRequest, saveRequest, hj]

/-- C3 amended witness: re-creating id a over the stored completed record
replaces it with the new record. -/
theorem saveRequest_overwrites_duplicate_witness :
    getRequest storeWithCompleted completedRecordB.requestId = some completedRecord ∧
    getRequest (saveRequest storeWithCompleted completedRecordB) "a" =
      some completedRecordB :=
  ⟨by decide,
   (saveRequest_overwrites_duplicate storeWithCompleted completedRecordB completedRecord
     (by decide)).2.1⟩

theorem waitLoop_eq_firstDoneRead (getAt : Nat → Option WebhookRequest) (timeoutMs : Nat) :
    ∀ fuel elapsed, (timeoutMs - elapsed + 99) / 100 ≤ fuel →
      waitLoop getAt timeoutMs fuel elapsed =
        firstDoneRead getAt
          ((List.range ((timeoutMs - elapsed + 99) / 100)).map (fun k => elapsed + 100 * k)) := by
  intro fuel
  induction fuel with
  | zero =>
    intro elapsed hfuel
    have h0 : (timeoutMs - elapsed + 99) / 100 = 0 := Nat.le_zero.mp hfuel
    simp [waitLoop, h0, firstDoneRead]
  | succ n ih =>
    intro elapsed hfuel
    by_cases he : elapsed < timeoutMs
    · have hn : (timeoutMs - elapsed + 99) / 100 = (timeoutMs - elapsed - 1) / 100 + 1 := by
        omega
      have hnext : (timeoutMs - (elapsed + 100) + 99) / 100 = (timeoutMs - elapsed - 1) / 100 := by
        omega
      have hfuel' : (timeoutMs - (elapsed + 100) + 99) / 100 ≤ n := by omega
      have hfun : ((fun k => elapsed + 100 * k) ∘ Nat.succ) =
          (fun k => (elapsed + 100) + 100 * k) := by
        funext k
        simp only [Function.comp_apply, Nat.succ_eq_add_one]
        omega
      have hrange :
          (List.range ((timeoutMs - elapsed + 99) / 100)).map (fun k => elapsed + 100 * k) =
            elapsed ::
              (List.range ((timeoutMs - (elapsed + 100) + 99) / 100)).map
                (fun k => (elapsed + 100) + 100 * k) := by
        rw [hn, hnext, List.range_succ_eq_map, List.map_cons, List.map_map, hfun]
        simp
      rw [hrange]
      simp only [waitLoop, firstDoneRead]
      rw [if_pos he]
      by_cases hd : waitIsDone (getAt elapsed) = true
      · simp [hd]
      · simp only [hd, if_false, Bool.false_eq_true]
        exact ih (elapsed + 100) hfuel'
    · have h0 : (timeoutMs - elapsed + 99) / 100 = 0 := by omega
      simp [waitLoop, h0, firstDoneRead, he]

/-- C4 (amended): the waiter polls at a fixed 100 ms interval and equals the
first read at the scheduled poll times whose status is COMPLETED or FAILED;
an absent record and every other status — TIMEOUT included — fail the done
test, so polling continues and the waiter returns absent once the timeout
elapses; a record already COMPLETED or FAILED at the first scheduled check
is returned at once. -/
theorem waitForResponse_eq_firstDoneRead (getAt : Nat → Option WebhookRequest)
    (timeoutMs : Nat) :
    waitForResponse getAt timeoutMs = firstDoneRead getAt (pollTimes timeoutMs) := by
  have h := waitLoop_eq_firstDoneRead getAt timeoutMs ((timeoutMs + 99) / 100) 0 (by omega)
  simpa [waitForResponse, pollTimes, Nat.sub_zero] using h

/-- C4 counterexample: a record already in the terminal state TIMEOUT is not
returned by the waiter: with every read returning it and a 200 ms timeout,
the waiter polls to exhaustion and returns absent instead of the record. -/
theorem waitForResponse_ignores_timeout_cex :
    timeoutRecord.status = Status.TIMEOUT ∧
    waitForResponse (fun _ => some timeoutRecord) 200 = none := by
  refine ⟨rfl, by decide⟩

end WebhookMcp
